import Mathlib

/-
Verification development for the ephemeral-runner inventory and remediation
tool (src/clutseratcc2.py).  The Python functions are embedded shallowly:
Python strings become `String`, instants become integer epoch seconds (`Int`),
fallible steps become `Option`/explicit result constructors, and the reporting
loops become folds over lists of CSV rows.
-/

/-- Python `str.lower()`: character-wise lower-casing. -/
def pyLower (s : String) : String := ⟨s.data.map Char.toLower⟩

/-- Python `str.strip()`: remove leading and trailing whitespace. -/
def pyStrip (s : String) : String :=
  ⟨((s.data.dropWhile Char.isWhitespace).reverse.dropWhile Char.isWhitespace).reverse⟩

/-- Helper for `pySplitWS`: accumulate the current word (reversed) while scanning. -/
def wordsAux : List Char → List Char → List String
  | [], acc => if acc.isEmpty then [] else [⟨acc.reverse⟩]
  | c :: cs, acc =>
      if c.isWhitespace then
        if acc.isEmpty then wordsAux cs [] else ⟨acc.reverse⟩ :: wordsAux cs []
      else wordsAux cs (c :: acc)

/-- Python `str.split()` with no argument: split on whitespace runs, dropping empty parts. -/
def pySplitWS (s : String) : List String := wordsAux s.data []

/-- Helper for `pySplitOn`: split at every occurrence of `sep`, keeping empty parts. -/
def splitCharAux (sep : Char) : List Char → List Char → List String
  | [], acc => [⟨acc.reverse⟩]
  | c :: cs, acc =>
      if c == sep then ⟨acc.reverse⟩ :: splitCharAux sep cs []
      else splitCharAux sep cs (c :: acc)

/-- Python `str.split(sep)` for a one-character separator: keeps empty parts. -/
def pySplitOn (sep : Char) (s : String) : List String := splitCharAux sep s.data []

/-- Status classification of `process_namespace` (src lines 67-72):
`Running` when `ready == total and ready and total and ready != "0"`,
otherwise `Failed` when `ready == "0"`, otherwise `Pending`. -/
def classify (ready tot : String) : String :=
  if ready == tot && ready != "" && tot != "" && ready != "0" then "Running"
  else if ready == "0" then "Failed"
  else "Pending"

/-- Organization extraction of `process_namespace` (src line 60):
`config_url.split('/')[3] if '/' in config_url else ""`.
`none` models the `IndexError` raised when the URL contains a `/` but the
split has no index-3 element. -/
def orgName (config_url : String) : Option String :=
  if config_url.data.contains '/' then (pySplitOn '/' config_url).get? 3
  else some ""

/-- Gregorian leap-year rule (as used by Python's `datetime`). -/
def isLeapYear (y : Nat) : Bool := (y % 4 == 0 && y % 100 != 0) || y % 400 == 0

/-- Days in a month of the proleptic Gregorian calendar. -/
def daysInMonth (y m : Nat) : Nat :=
  if m == 2 then (if isLeapYear y then 29 else 28)
  else if m == 4 || m == 6 || m == 9 || m == 11 then 30
  else 31

/-- Days in all years strictly before year `y` (year 1 is the first year). -/
def daysBeforeYear (y : Nat) : Nat :=
  let p := y - 1
  365 * p + p / 4 - p / 100 + p / 400

/-- Days in the months of year `y` strictly before month `m`. -/
def daysBeforeMonth (y m : Nat) : Nat :=
  (List.range (m - 1)).foldl (fun acc i => acc + daysInMonth y (i + 1)) 0

/-- UTC epoch seconds of a validated civil date-time (1970-01-01 is day 719162
counted from 0001-01-01). -/
def epochSecs (y mo d h mi s : Nat) : Int :=
  (Int.ofNat (daysBeforeYear y + daysBeforeMonth y mo + (d - 1)) - 719162) * 86400
    + Int.ofNat (h * 3600 + mi * 60 + s)

/-- Decimal value of a digit character. -/
def digitVal (c : Char) : Option Nat :=
  if c.isDigit then some (c.toNat - 48) else none

/-- Model of `datetime.strptime(creation_ts, "%Y-%m-%dT%H:%M:%SZ")` followed by
the UTC epoch-second conversion: `none` models the `ValueError` that the
`except` clause of src lines 61-66 catches. Field ranges are validated the way
`datetime` validates them (month 1-12, day within the month, h/min/sec ranges). -/
def parseTimestamp (ts : String) : Option Int :=
  match ts.data with
  | [y1, y2, y3, y4, c1, m1, m2, c2, d1, d2, c3, h1, h2, c4, n1, n2, c5, s1, s2, c6] =>
    if c1 == '-' && c2 == '-' && c3 == 'T' && c4 == ':' && c5 == ':' && c6 == 'Z' then
      match digitVal y1, digitVal y2, digitVal y3, digitVal y4, digitVal m1, digitVal m2,
            digitVal d1, digitVal d2, digitVal h1, digitVal h2, digitVal n1, digitVal n2,
            digitVal s1, digitVal s2 with
      | some a, some b, some c, some dd, some e, some f, some g, some hh,
        some i, some j, some k, some l, some m, some n =>
        let y := 1000 * a + 100 * b + 10 * c + dd
        let mo := 10 * e + f
        let dy := 10 * g + hh
        let hr := 10 * i + j
        let mi := 10 * k + l
        let se := 10 * m + n
        if 1 ≤ y && 1 ≤ mo && mo ≤ 12 && 1 ≤ dy && dy ≤ daysInMonth y mo
            && hr ≤ 23 && mi ≤ 59 && se ≤ 59 then
          some (epochSecs y mo dy hr mi se)
        else none
      | _, _, _, _, _, _, _, _, _, _, _, _, _, _ => none
    else none
  | _ => none

/-- Age computation of `process_namespace` (src lines 61-66):
`int((now - created).total_seconds() / 60)` rendered as `"{age_min}m"`, or the
sentinel `"N/A"` when the timestamp does not parse.  Python's `int()` truncates
toward zero, which is `Int.tdiv`. -/
def ageOf (now : Int) (creation_ts : String) : String :=
  match parseTimestamp creation_ts with
  | some created => toString (Int.tdiv (now - created) 60) ++ "m"
  | none => "N/A"

/-- Outcome of processing one line of `kubectl` output (src lines 55-73).
`raises` models an uncaught Python exception, `skipped` the `continue` branch,
`record` the nine-field row appended to `results`. -/
inductive LineResult
  | raises
  | skipped
  | record (fields : List String)
deriving DecidableEq

/-- One iteration of the line loop of `process_namespace` (src lines 55-73):
split the line on whitespace, discard it when fewer than 6 fields, unpack
exactly 6 names (`ValueError`, i.e. `raises`, when more than 6 fields), derive
the organization (`IndexError`, i.e. `raises`, when `orgName` is undefined),
compute age and status, and emit the row. -/
def processLine (cluster_name api_endpoint ns : String) (now : Int) (line : String) :
    LineResult :=
  let parts := pySplitWS line
  if parts.length < 6 then .skipped
  else
    match parts with
    | [name, config_url, runner_id, ready, tot, creation_ts] =>
        match orgName config_url with
        | none => .raises
        | some org =>
            let age := ageOf now creation_ts
            let status := classify ready tot
            .record [cluster_name, api_endpoint, ns, name, config_url, org, runner_id,
                     age, status]
    | _ => .raises

/-- The full line loop of `process_namespace` over the query output
(src lines 54-74): `none` models an exception escaping the loop and aborting
the caller; otherwise the accumulated list of result rows. -/
def processOutput (cluster_name api_endpoint ns : String) (now : Int) (output : String) :
    Option (List (List String)) :=
  (pySplitOn '\x0a' (pyStrip output)).foldl
    (fun acc line =>
      match acc with
      | none => none
      | some rs =>
          match processLine cluster_name api_endpoint ns now line with
          | .raises => none
          | .skipped => some rs
          | .record r => some (rs ++ [r]))
    (some [])

/-- `process_namespace` (src lines 44-74).  The external `kubectl` query is an
opaque collaborator, so its outcome is an argument: `none` models
`CalledProcessError` (caught, yielding `[]`), `some output` its stdout text.
The result `none` models an exception escaping `process_namespace`. -/
def process_namespace (cluster_name api_endpoint ns : String) (now : Int)
    (queryResult : Option String) : Option (List (List String)) :=
  match queryResult with
  | none => some []
  | some output => processOutput cluster_name api_endpoint ns now output

/-- One row of the persisted snapshot CSV (header at src line 96). -/
structure Row where
  Cluster : String
  API_Endpoint : String
  Namespace : String
  Runner_Name : String
  GitHub_Config_URL : String
  Org_Name : String
  Runner_ID : String
  Age : String
  Status : String
deriving DecidableEq

/-- Normalization of the `--org` argument (src lines 211 and 235):
`args.org_filter.lower() if args.org_filter else ""`. -/
def orgFilterLC : Option String → String
  | none => ""
  | some s => if s == "" then "" else pyLower s

/-- Row-selection test of the status-filtered report (src line 221). -/
def reportPred (status_lc org_filter : String) (all_orgs : Bool) (row : Row) : Bool :=
  pyLower row.Status == status_lc
    && (all_orgs || org_filter == "" || org_filter == pyLower row.Org_Name)

/-- Rows selected by the status-filtered report (the rows appended into the
`runners` groups at src lines 217-225). -/
def reportRows (rows : List Row) (status_lc org_filter : String) (all_orgs : Bool) :
    List Row :=
  rows.filter (reportPred status_lc org_filter all_orgs)

/-- The `grand_total` counter of the status-filtered report (src lines 216-225). -/
def reportGrandTotal (rows : List Row) (status_lc org_filter : String)
    (all_orgs : Bool) : Nat :=
  rows.foldl
    (fun acc row => if reportPred status_lc org_filter all_orgs row then acc + 1 else acc) 0

/-- Row-selection test of the deletion branch (src line 246). -/
def deletePred (status org_filter : String) (all_orgs : Bool) (row : Row) : Bool :=
  pyLower row.Status == status
    && (all_orgs || org_filter == "" || org_filter == pyLower row.Org_Name)

/-- The delete command generated for one selected row (src line 254). -/
def deleteCmdOf (row : Row) : String :=
  "tkgi get-kubeconfig " ++ row.Cluster ++ " && kubectl -n " ++ row.Namespace
    ++ " delete pod " ++ row.Runner_Name

/-- The `delete_cmds` list built by the deletion branch (src lines 241-254). -/
def deleteCmds (rows : List Row) (status org_filter : String) (all_orgs : Bool) :
    List String :=
  rows.foldl
    (fun acc row =>
      if deletePred status org_filter all_orgs row then acc ++ [deleteCmdOf row] else acc)
    []

/-- Per-organization counters of the summary report (src lines 197-201). -/
structure Counts where
  running : Nat
  failed : Nat
  pending : Nat
  tot : Nat
deriving DecidableEq

/-- One summary update for a row with (lower-cased) status `status_lc`
(src lines 198-201): `total` always increments, exactly one of the three
status counters increments when the status is one of the three known ones. -/
def bump (c : Counts) (status_lc : String) : Counts :=
  let c2 : Counts := { c with tot := c.tot + 1 }
  if status_lc == "running" then { c2 with running := c2.running + 1 }
  else if status_lc == "failed" then { c2 with failed := c2.failed + 1 }
  else if status_lc == "pending" then { c2 with pending := c2.pending + 1 }
  else c2

/-- The `summary` dict (`setdefault` then update, src lines 197-201), modeled
as an association list keyed by the lower-cased organization. -/
def updateSummary : List (String × Counts) → String → String → List (String × Counts)
  | [], org, st => [(org, bump ⟨0, 0, 0, 0⟩ st)]
  | (k, c) :: rest, org, st =>
      if k == org then (k, bump c st) :: rest
      else (k, c) :: updateSummary rest org st

/-- The summary-building loop over all snapshot rows (src lines 193-201). -/
def buildSummary (rows : List Row) : List (String × Counts) :=
  rows.foldl (fun m row => updateSummary m (pyLower row.Org_Name) (pyLower row.Status)) []

/-- The `grand` accumulation loop (src lines 202-205): component-wise sum of
all per-organization counters. -/
def grandOf (m : List (String × Counts)) : Counts :=
  m.foldl
    (fun g e =>
      ⟨g.running + e.2.running, g.failed + e.2.failed, g.pending + e.2.pending,
       g.tot + e.2.tot⟩)
    ⟨0, 0, 0, 0⟩

/-- Contents written to the delete-commands script (src lines 263-264):
`"\n".join(delete_cmds)`. -/
def planFileOf (delete_cmds : List String) : String :=
  String.intercalate "\x0a" delete_cmds

/-- Normalization of the confirmation input (src line 266):
`input(...).strip().lower()`. -/
def confirmNormalized (confirm : String) : String := pyLower (pyStrip confirm)

/-- The confirmation-gated deletion step (src lines 261-273): the plan file is
written before the prompt; the commands of the script are executed exactly
when the normalized confirmation equals `"y"`.  Result: (plan-file contents on
disk, executed delete commands). -/
def deletionPhase (delete_cmds : List String) (confirm : String) : String × List String :=
  let planFile := planFileOf delete_cmds
  if confirmNormalized confirm == "y" then (planFile, delete_cmds) else (planFile, [])

/-- Concrete snapshot rows used to instantiate the general theorems. -/
def rowA : Row :=
  ⟨"c1", "api1", "ns1", "r1", "https://github.com/acme/cfg", "ACME", "11", "5m", "Pending"⟩

/-- A second concrete snapshot row (different organization). -/
def rowB : Row :=
  ⟨"c1", "api1", "ns2", "r2", "https://github.com/other/cfg", "other", "12", "7m", "Pending"⟩

/-- A third concrete snapshot row (Running, organization already lower-cased). -/
def rowC : Row :=
  ⟨"c2", "api1", "ns3", "r3", "https://github.com/acme/cfg", "acme", "13", "9m", "Running"⟩

/-- A concrete snapshot row whose derived organization is the empty string. -/
def rowE : Row :=
  ⟨"c2", "api1", "ns4", "r4", "nourl", "", "14", "3m", "Pending"⟩

/-
Theorems.  General-purpose helper lemmas come first, then one theorem per
claim (with its witness or counterexample where required).
-/

theorem pyLower_eq_empty_iff (s : String) : pyLower s = "" ↔ s = "" := by
  constructor
  · intro h
    have hd : s.data.map Char.toLower = ([] : List Char) := congrArg String.data h
    have hnil : s.data = [] := List.map_eq_nil_iff.mp hd
    cases s with
    | mk d => cases hnil; rfl
  · intro h
    subst h
    rfl

theorem beq_swap (a b : String) : (a == b) = (b == a) := by
  by_cases h : a = b
  · subst h; rfl
  · have h' : b ≠ a := fun hb => h hb.symm
    simp [h, h']

theorem filter_ext {α : Type} (p q : α → Bool) (h : ∀ x, p x = q x) :
    ∀ l : List α, l.filter p = l.filter q := by
  intro l
  induction l with
  | nil => rfl
  | cons x xs ih => simp [List.filter_cons, h, ih]

theorem foldl_snoc_filter_map {α β : Type} (p : α → Bool) (g : α → β) :
    ∀ (l : List α) (acc : List β),
      l.foldl (fun a x => if p x then a ++ [g x] else a) acc
        = acc ++ (l.filter p).map g := by
  intro l
  induction l with
  | nil => intro acc; simp
  | cons x xs ih =>
      intro acc
      simp only [List.foldl_cons, List.filter_cons]
      by_cases hp : p x
      · simp [hp, ih, List.append_assoc]
      · simp [hp, ih]

theorem foldl_count_filter {α : Type} (p : α → Bool) :
    ∀ (l : List α) (acc : Nat),
      l.foldl (fun a x => if p x then a + 1 else a) acc = acc + (l.filter p).length := by
  intro l
  induction l with
  | nil => intro acc; simp
  | cons x xs ih =>
      intro acc
      simp only [List.foldl_cons, List.filter_cons]
      by_cases hp : p x
      · simp [hp, ih]; omega
      · simp [hp, ih]

theorem neg_label_facts (j : Nat) :
    (("-" ++ Nat.repr (j + 1)) ++ "m") ≠ "0m" ∧
    (("-" ++ Nat.repr (j + 1)) ++ "m") ≠ "N/A" := by
  constructor <;>
    · intro h
      have hd := congrArg String.data h
      rw [show (("-" ++ Nat.repr (j + 1)) ++ "m").data
            = '-' :: ((Nat.repr (j + 1)).data ++ ['m']) from rfl] at hd
      injection hd with h1 _
      exact absurd h1 (by decide)

/-- Claim C1: the status classification is `Running` iff ready equals total,
both are non-empty and ready is not `"0"`; `Failed` iff ready is `"0"` and the
Running condition fails; `Pending` in every other case; with the four concrete
classifications of the spec. -/
theorem classify_cases (ready tot : String) :
    (classify ready tot = "Running" ↔
      (ready = tot ∧ ready ≠ "" ∧ tot ≠ "" ∧ ready ≠ "0")) ∧
    (classify ready tot = "Failed" ↔
      (ready = "0" ∧ ¬(ready = tot ∧ ready ≠ "" ∧ tot ≠ "" ∧ ready ≠ "0"))) ∧
    (classify ready tot = "Pending" ↔
      (ready ≠ "0" ∧ ¬(ready = tot ∧ ready ≠ "" ∧ tot ≠ "" ∧ ready ≠ "0"))) ∧
    classify "2" "2" = "Running" ∧ classify "0" "2" = "Failed" ∧
    classify "1" "2" = "Pending" ∧ classify "0" "0" = "Failed" := by
  have hP : ((ready == tot && ready != "" && tot != "" && ready != "0") = true) ↔
      (ready = tot ∧ ready ≠ "" ∧ tot ≠ "" ∧ ready ≠ "0") := by
    simp [Bool.and_eq_true, beq_iff_eq, bne_iff_ne, and_assoc]
  have h0 : ((ready == "0") = true) ↔ ready = "0" := by simp
  refine ⟨?_, ?_, ?_, by decide, by decide, by decide, by decide⟩
  · unfold classify
    split_ifs with h1 h2
    · exact iff_of_true rfl (hP.mp h1)
    · exact iff_of_false (by decide) fun hp => h1 (hP.mpr hp)
    · exact iff_of_false (by decide) fun hp => h1 (hP.mpr hp)
  · unfold classify
    split_ifs with h1 h2
    · exact iff_of_false (by decide) fun hc => hc.2 (hP.mp h1)
    · exact iff_of_true rfl ⟨h0.mp h2, fun hp => h1 (hP.mpr hp)⟩
    · exact iff_of_false (by decide) fun hc => h2 (h0.mpr hc.1)
  · unfold classify
    split_ifs with h1 h2
    · exact iff_of_false (by decide) fun hc => hc.2 (hP.mp h1)
    · exact iff_of_false (by decide) fun hc => hc.1 (h0.mp h2)
    · exact iff_of_true rfl ⟨fun hc => h2 (h0.mpr hc), fun hp => h1 (hP.mpr hp)⟩

/-- Claim C2: the organization extraction is NOT total.  A config-source URL
that contains a `/` but has no 4th `/`-delimited segment makes
`config_url.split('/')[3]` raise `IndexError` (modeled as `none`); the empty
string is returned only when the URL contains no `/` at all. -/
theorem orgName_not_total :
    orgName "a/b" = none ∧
    orgName "https://github.com/myorg/runners" = some "myorg" ∧
    orgName "no-slash-url" = some "" := by decide

/-- Claim C3: per-line scan processing is NOT total.  A line with more than 6
whitespace-separated fields makes the 6-name tuple unpacking raise
`ValueError`, and a 6-field line with a malformed config URL raises
`IndexError`; either exception escapes the line loop and aborts the caller
(`processOutput` = `none`).  Lines with fewer than 6 fields are discarded and
well-formed 6-field lines yield exactly one record. -/
theorem processLine_not_total :
    processLine "c" "a" "ns" 0 "r1 http://x/y/z 7 1 1 2024-01-01T00:00:00Z extra"
      = LineResult.raises ∧
    processLine "c" "a" "ns" 0 "r1 a/b 7 1 1 2024-01-01T00:00:00Z" = LineResult.raises ∧
    processLine "c" "a" "ns" 0 "too few" = LineResult.skipped ∧
    processLine "c" "a" "ns" 1717243500 "r1 https://github.com/org1/cfg 7 2 2 2024-06-01T12:00:00Z"
      = LineResult.record ["c", "a", "ns", "r1", "https://github.com/org1/cfg", "org1",
          "7", "5m", "Running"] ∧
    processOutput "c" "a" "ns" 0 "r1 http://x/y/z 7 1 1 bad extra2 extra3" = none ∧
    process_namespace "c" "a" "ns" 0 none = some [] := by decide

/-- Claim C4 counterexample: the confirmation input `"yes"`, although it is
case-insensitively `"yes"`, does NOT trigger execution — the code only accepts
a normalized `"y"`, so a non-empty plan executes zero delete actions. -/
theorem confirm_yes_not_executed :
    confirmNormalized "yes" = "yes" ∧ (deletionPhase ["cmd1"] "yes").2 = [] ∧
    (["cmd1"] : List String) ≠ ([] : List String) := by decide

/-- Claim C4 (amended): deletion execution runs exactly when the confirmation
input, stripped of surrounding whitespace and lower-cased, equals `"y"`; any
other input (including `"yes"`) executes zero delete actions, and in every
case the plan file on disk holds exactly the generated commands, unchanged by
the confirmation outcome. -/
theorem deletion_confirmation_gate :
    (∀ (cmds : List String) (confirm : String),
        (deletionPhase cmds confirm).1 = planFileOf cmds ∧
        (confirmNormalized confirm = "y" → (deletionPhase cmds confirm).2 = cmds) ∧
        (confirmNormalized confirm ≠ "y" → (deletionPhase cmds confirm).2 = [])) ∧
    (deletionPhase ["cmd1"] " Y ").2 = ["cmd1"] ∧
    (deletionPhase ["cmd1"] "YES").2 = [] := by
  refine ⟨?_, by decide, by decide⟩
  intro cmds confirm
  unfold deletionPhase
  by_cases h : confirmNormalized confirm = "y"
  · simp [h]
  · simp [h]

/-- Witness for the amended C4 theorem at a concrete declined confirmation. -/
theorem deletion_confirmation_gate_witness :
    (deletionPhase ["cmd1"] "n").2 = [] :=
  (deletion_confirmation_gate.1 ["cmd1"] "n").2.2 (by decide)

/-- Claim C5: when the creation timestamp parses, the age is the elapsed whole
minutes between now and the creation instant rendered as `"{minutes}m"`
(in particular `age(now, now - 5min) = "5m"`); when it does not parse, the age
is exactly the sentinel `"N/A"` and never `"0m"`. -/
theorem age_spec (now : Int) (ts : String) :
    (∀ t : Int, parseTimestamp ts = some t → 0 ≤ now - t →
        ageOf now ts = toString ((now - t).toNat / 60) ++ "m") ∧
    (∀ t : Int, parseTimestamp ts = some t → now - t = 300 → ageOf now ts = "5m") ∧
    (parseTimestamp ts = none → ageOf now ts = "N/A" ∧ ageOf now ts ≠ "0m") := by
  refine ⟨?_, ?_, ?_⟩
  · intro t h hnn
    have hage : ageOf now ts = toString (Int.tdiv (now - t) 60) ++ "m" := by
      unfold ageOf
      rw [h]
    rcases hd : now - t with k | j
    · rw [hd] at hage
      rw [hage]
      rfl
    · rw [hd] at hnn
      exact absurd hnn (by rw [Int.negSucc_eq]; omega)
  · intro t h h300
    have hage : ageOf now ts = toString (Int.tdiv (now - t) 60) ++ "m" := by
      unfold ageOf
      rw [h]
    rw [hage, h300]
    decide
  · intro h
    have hna : ageOf now ts = "N/A" := by
      unfold ageOf
      rw [h]
    refine ⟨hna, ?_⟩
    rw [hna]
    decide

/-- Witness for C5: a timestamp exactly five minutes old yields `"5m"`, and an
unparseable timestamp yields `"N/A"`. -/
theorem age_spec_witness :
    ageOf 1717243500 "2024-06-01T12:00:00Z" = "5m" ∧ ageOf 0 "garbage" = "N/A" :=
  ⟨(age_spec 1717243500 "2024-06-01T12:00:00Z").2.1 1717243200 (by decide) (by decide),
   ((age_spec 0 "garbage").2.2 (by decide)).1⟩

/-- Claim C10: the minutes computation truncates toward zero — a parse-able
timestamp strictly within 60 seconds of now (on either side) yields `"0m"`,
and a parse-able timestamp more than a minute in the future yields a negative
minutes label, never `"N/A"` and never clamped to `"0m"`. -/
theorem age_truncates (now t : Int) (ts : String) (h : parseTimestamp ts = some t) :
    (-60 < now - t → now - t < 60 → ageOf now ts = "0m") ∧
    (now - t < -60 →
      ∃ m : Int, m < 0 ∧ ageOf now ts = toString m ++ "m" ∧
        ageOf now ts ≠ "N/A" ∧ ageOf now ts ≠ "0m") := by
  have hage : ageOf now ts = toString (Int.tdiv (now - t) 60) ++ "m" := by
    unfold ageOf
    rw [h]
  constructor
  · intro h1 h2
    rcases hd : now - t with k | j
    · rw [hd] at hage h2
      have hk : k < 60 := by
        rw [show Int.ofNat k = (k : Int) from rfl] at h2
        omega
      rw [hage, show Int.tdiv (Int.ofNat k) 60 = Int.ofNat (k / 60) from rfl,
        Nat.div_eq_of_lt hk]
      rfl
    · rw [hd] at hage h1
      rw [show Int.negSucc j = -((j : Int) + 1) from Int.negSucc_eq j] at h1
      have hj : Nat.succ j < 60 := by omega
      rw [hage, show Int.tdiv (Int.negSucc j) 60 = -Int.ofNat (Nat.succ j / 60) from rfl,
        Nat.div_eq_of_lt hj]
      rfl
  · intro hlt
    rcases hd : now - t with k | j
    · rw [hd] at hlt
      rw [show Int.ofNat k = (k : Int) from rfl] at hlt
      exact absurd hlt (by omega)
    · rw [hd] at hage hlt
      rw [show Int.negSucc j = -((j : Int) + 1) from Int.negSucc_eq j] at hlt
      have hq : 1 ≤ Nat.succ j / 60 := (Nat.one_le_div_iff (by omega)).mpr (by omega)
      obtain ⟨p, hp⟩ : ∃ p, Nat.succ j / 60 = p + 1 := ⟨Nat.succ j / 60 - 1, by omega⟩
      have hm : Int.tdiv (Int.negSucc j) 60 = Int.negSucc p := by
        rw [show Int.tdiv (Int.negSucc j) 60 = -Int.ofNat (Nat.succ j / 60) from rfl, hp]
        rfl
      rw [hm] at hage
      refine ⟨Int.negSucc p, Int.negSucc_lt_zero p, hage, ?_, ?_⟩
      · rw [hage, show toString (Int.negSucc p) = "-" ++ Nat.repr (p + 1) from rfl]
        exact (neg_label_facts p).2
      · rw [hage, show toString (Int.negSucc p) = "-" ++ Nat.repr (p + 1) from rfl]
        exact (neg_label_facts p).1

/-- Witness for C10: a timestamp 30 seconds in the past yields `"0m"`. -/
theorem age_truncates_witness :
    ageOf 1717243230 "2024-06-01T12:00:00Z" = "0m" :=
  (age_truncates 1717243230 1717243200 "2024-06-01T12:00:00Z" (by decide)).1
    (by decide) (by decide)

theorem bump_preserves (c : Counts) (st : String)
    (hst : st = "running" ∨ st = "failed" ∨ st = "pending")
    (hc : c.running + c.failed + c.pending = c.tot) :
    (bump c st).running + (bump c st).failed + (bump c st).pending = (bump c st).tot := by
  rcases hst with h | h | h <;> subst h <;> simp [bump] <;> omega

theorem updateSummary_preserves (org st : String)
    (hst : st = "running" ∨ st = "failed" ∨ st = "pending") :
    ∀ m : List (String × Counts),
      (∀ e ∈ m, e.2.running + e.2.failed + e.2.pending = e.2.tot) →
      ∀ e ∈ updateSummary m org st, e.2.running + e.2.failed + e.2.pending = e.2.tot := by
  intro m
  induction m with
  | nil =>
      intro _ e he
      simp only [updateSummary, List.mem_singleton] at he
      subst he
      exact bump_preserves ⟨0, 0, 0, 0⟩ st hst rfl
  | cons hd tl ih =>
      obtain ⟨k, c⟩ := hd
      intro hm e he
      simp only [updateSummary] at he
      by_cases hk : (k == org) = true
      · rw [if_pos hk] at he
        rcases List.mem_cons.mp he with he1 | he2
        · subst he1
          exact bump_preserves c st hst (hm (k, c) (List.mem_cons_self _ _))
        · exact hm e (List.mem_cons_of_mem _ he2)
      · rw [if_neg hk] at he
        rcases List.mem_cons.mp he with he1 | he2
        · subst he1
          exact hm (k, c) (List.mem_cons_self _ _)
        · exact ih (fun x hx => hm x (List.mem_cons_of_mem _ hx)) e he2

theorem buildSummary_preserves :
    ∀ (rows : List Row) (m : List (String × Counts)),
      (∀ r ∈ rows, r.Status = "Running" ∨ r.Status = "Failed" ∨ r.Status = "Pending") →
      (∀ e ∈ m, e.2.running + e.2.failed + e.2.pending = e.2.tot) →
      ∀ e ∈ rows.foldl
          (fun m row => updateSummary m (pyLower row.Org_Name) (pyLower row.Status)) m,
        e.2.running + e.2.failed + e.2.pending = e.2.tot := by
  intro rows
  induction rows with
  | nil => intro m _ hm e he; exact hm e he
  | cons r rs ih =>
      intro m hrows hm e he
      rw [List.foldl_cons] at he
      have hstatus : pyLower r.Status = "running" ∨ pyLower r.Status = "failed" ∨
          pyLower r.Status = "pending" := by
        rcases hrows r (List.mem_cons_self _ _) with h | h | h
        · rw [h]; exact Or.inl (by decide)
        · rw [h]; exact Or.inr (Or.inl (by decide))
        · rw [h]; exact Or.inr (Or.inr (by decide))
      exact ih (updateSummary m (pyLower r.Org_Name) (pyLower r.Status))
        (fun x hx => hrows x (List.mem_cons_of_mem _ hx))
        (updateSummary_preserves (pyLower r.Org_Name) (pyLower r.Status) hstatus m hm) e he

theorem grandOf_aux :
    ∀ (m : List (String × Counts)) (g : Counts),
      m.foldl (fun g e => ⟨g.running + e.2.running, g.failed + e.2.failed,
          g.pending + e.2.pending, g.tot + e.2.tot⟩) g
        = ⟨g.running + (m.map fun e => e.2.running).sum,
           g.failed + (m.map fun e => e.2.failed).sum,
           g.pending + (m.map fun e => e.2.pending).sum,
           g.tot + (m.map fun e => e.2.tot).sum⟩ := by
  intro m
  induction m with
  | nil => intro g; cases g; simp
  | cons e es ih =>
      intro g
      simp only [List.foldl_cons, List.map_cons, List.sum_cons]
      rw [ih]
      simp only [Counts.mk.injEq]
      refine ⟨by omega, by omega, by omega, by omega⟩

/-- Claim C8: in the summary report, for every organization the Running,
Failed and Pending counts add up to that organization's total, and every grand
total is the sum of the corresponding per-organization counts (for snapshots
whose statuses come from the collection phase). -/
theorem summary_counts (rows : List Row)
    (h : ∀ r ∈ rows, r.Status = "Running" ∨ r.Status = "Failed" ∨ r.Status = "Pending") :
    (∀ e ∈ buildSummary rows, e.2.running + e.2.failed + e.2.pending = e.2.tot) ∧
    (grandOf (buildSummary rows)).running
      = ((buildSummary rows).map fun e => e.2.running).sum ∧
    (grandOf (buildSummary rows)).failed
      = ((buildSummary rows).map fun e => e.2.failed).sum ∧
    (grandOf (buildSummary rows)).pending
      = ((buildSummary rows).map fun e => e.2.pending).sum ∧
    (grandOf (buildSummary rows)).tot
      = ((buildSummary rows).map fun e => e.2.tot).sum := by
  refine ⟨?_, ?_, ?_, ?_, ?_⟩
  · exact buildSummary_preserves rows [] h (fun e he => absurd he (List.not_mem_nil e))
  all_goals
    unfold grandOf
    rw [grandOf_aux]
    simp

/-- Witness for C8 on a concrete two-row snapshot of one organization. -/
theorem summary_counts_witness :
    (("acme", (⟨1, 0, 1, 2⟩ : Counts)) ∈ buildSummary [rowC, rowA]) ∧ (1 + 0 + 1 = 2) :=
  ⟨by decide,
   (summary_counts [rowC, rowA] (by decide)).1 ("acme", ⟨1, 0, 1, 2⟩) (by decide)⟩

/-- Claim C6: the deletion plan is a pure filter of the snapshot with the very
predicate of the status-filtered report, contains exactly one delete action
per selected record, and its size equals the grand total the equivalent
status-filtered report reports. -/
theorem deletePlan_refines_report (rows : List Row) (status_lc org_filter : String)
    (all_orgs : Bool) :
    deletePred status_lc org_filter all_orgs = reportPred status_lc org_filter all_orgs ∧
    deleteCmds rows status_lc org_filter all_orgs
      = (rows.filter (reportPred status_lc org_filter all_orgs)).map deleteCmdOf ∧
    (deleteCmds rows status_lc org_filter all_orgs).length
      = reportGrandTotal rows status_lc org_filter all_orgs := by
  have h1 : deleteCmds rows status_lc org_filter all_orgs
      = (rows.filter (deletePred status_lc org_filter all_orgs)).map deleteCmdOf := by
    unfold deleteCmds
    rw [foldl_snoc_filter_map, List.nil_append]
  refine ⟨rfl, h1, ?_⟩
  rw [h1, List.length_map]
  unfold reportGrandTotal
  rw [foldl_count_filter, Nat.zero_add]
  rfl

/-- Claim C7: with a non-empty organization filter, the status-filtered report
selects every status-matching record when the all-orgs flag is set (the filter
is ignored), and exactly the status-matching records whose organization
lower-cases to the lower-cased filter value when it is not. -/
theorem report_org_filter (rows : List Row) (status_lc f : String) (hf : f ≠ "") :
    reportRows rows status_lc (orgFilterLC (some f)) true
      = rows.filter (fun row => pyLower row.Status == status_lc) ∧
    reportRows rows status_lc (orgFilterLC (some f)) false
      = rows.filter (fun row =>
          pyLower row.Status == status_lc && pyLower row.Org_Name == pyLower f) := by
  have hfl : orgFilterLC (some f) = pyLower f := by
    simp [orgFilterLC, hf]
  have hne : pyLower f ≠ "" := fun hc => hf ((pyLower_eq_empty_iff f).mp hc)
  constructor
  · unfold reportRows
    apply filter_ext
    intro row
    simp [reportPred]
  · rw [hfl]
    unfold reportRows
    apply filter_ext
    intro row
    simp only [reportPred, Bool.false_or]
    rw [show (pyLower f == "") = false by simp [hne]]
    rw [Bool.false_or, beq_swap (pyLower f) (pyLower row.Org_Name)]

/-- Witness for C7: the filter value `"Acme"` selects exactly the pending
record of organization `"ACME"`. -/
theorem report_org_filter_witness :
    reportRows [rowA, rowB] "pending" (orgFilterLC (some "Acme")) false = [rowA] := by
  have h := (report_org_filter [rowA, rowB] "pending" "Acme" (by decide)).2
  rw [h]
  decide

/-- Claim C9: with the all-orgs flag false and an absent or empty organization
filter, both the status-filtered report and the deletion selection apply no
organization restriction at all; and no input makes the selection coincide
with restricting to records whose organization is the empty string. -/
theorem empty_org_filter_no_restriction :
    (∀ (rows : List Row) (status_lc : String) (arg : Option String),
        orgFilterLC arg = "" →
        reportRows rows status_lc (orgFilterLC arg) false
            = rows.filter (fun row => pyLower row.Status == status_lc) ∧
        deleteCmds rows status_lc (orgFilterLC arg) false
            = (rows.filter (fun row => pyLower row.Status == status_lc)).map deleteCmdOf) ∧
    (∀ arg : Option String, ∃ (rows : List Row) (status_lc : String),
        reportRows rows status_lc (orgFilterLC arg) false
          ≠ rows.filter (fun row =>
              pyLower row.Status == status_lc && row.Org_Name == "")) := by
  constructor
  · intro rows status_lc arg harg
    rw [harg]
    constructor
    · unfold reportRows
      apply filter_ext
      intro row
      simp [reportPred]
    · unfold deleteCmds
      rw [foldl_snoc_filter_map, List.nil_append]
      congr 1
      apply filter_ext
      intro row
      simp [deletePred]
  · intro arg
    by_cases hc : orgFilterLC arg = ""
    · refine ⟨[rowA], "pending", ?_⟩
      rw [hc]
      decide
    · refine ⟨[rowE], "pending", ?_⟩
      have h1 : (pyLower rowE.Status == "pending") = true := by decide
      have h2 : pyLower rowE.Org_Name = "" := by decide
      have hpred : reportPred "pending" (orgFilterLC arg) false rowE = false := by
        simp [reportPred, h1, h2, hc]
      have hL : reportRows [rowE] "pending" (orgFilterLC arg) false = [] := by
        unfold reportRows
        simp [List.filter_cons, hpred]
      rw [hL]
      decide

/-- Witness for C9: an absent organization filter leaves the pending record of
organization `"ACME"` selected. -/
theorem empty_org_filter_witness :
    reportRows [rowA] "pending" (orgFilterLC none) false = [rowA] := by
  have h := (empty_org_filter_no_restriction.1 [rowA] "pending" none rfl).1
  rw [h]
  decide
